import Mathlib

/-!
Shallow embedding of src/crawl-ref/source/ui.h, the hierarchical layout
system of this repository: geometry primitives, the Slot event-handler
registry, the UI widget base attributes and constructor, the margin setters,
the preferred-size cache wrapper, the UIStack child accessor and the UIGrid
track accessors, together with theorems about them.
-/

/-- Geometry 4-tuple of ints (ui.h struct i4, components xyzw[0..3]). -/
structure i4 where
  x0 : Int
  x1 : Int
  x2 : Int
  x3 : Int
deriving DecidableEq

/-- Geometry 2-tuple of ints (ui.h struct i2). -/
structure i2 where
  y0 : Int
  y1 : Int
deriving DecidableEq

/-- Preferred-size pair (ui.h struct UISizeReq): minimum and natural size. -/
structure UISizeReq where
  min : Int
  nat : Int
deriving DecidableEq

/-- Alignment enum (ui.h UIAlign_type). -/
inductive UIAlign_type where
  | UI_ALIGN_UNSET
  | UI_ALIGN_START
  | UI_ALIGN_END
  | UI_ALIGN_CENTER
  | UI_ALIGN_STRETCH
deriving DecidableEq

/-- Justification enum (ui.h UIJustify_type). -/
inductive UIJustify_type where
  | UI_JUSTIFY_START
  | UI_JUSTIFY_CENTER
  | UI_JUSTIFY_END
deriving DecidableEq

/-- The Slot event-handler registry (ui.h:56-86): a std::multimap from target
identity (a widget pointer, modelled as Nat) to handler callbacks, modelled
as a list of (target, handler) pairs. The multimap groups entries by key and,
within one key, keeps insertion order (multimap::insert places an entry at
the upper bound of its key's range); emit and remove_by_target only ever act
on a single key's range, so the per-key order of this list is exactly the
multimap's iteration order for that key. -/
structure SlotModel (E : Type) where
  handlers : List (Nat × (E → Bool))

/-- The handlers registered against a given target, in registration order:
the multimap equal_range(target) that Slot::emit iterates over. -/
def handlers_for {E : Type} (s : SlotModel E) (t : Nat) : List (E → Bool) :=
  (s.handlers.filter (fun pr => decide (pr.1 = t))).map (fun pr => pr.2)

/-- One scan of a handler list as the loop of Slot::emit (ui.h:64-74)
performs it: call each handler in order and stop at the first that returns
true. Returns the final result together with the list of handlers that were
actually invoked, in invocation order. -/
def emitScan {E : Type} (ev : E) : List (E → Bool) → Bool × List (E → Bool)
  | [] => (false, [])
  | f :: fs =>
    if f ev then (true, [f])
    else ((emitScan ev fs).1, f :: (emitScan ev fs).2)

/-- Slot::emit (ui.h:64-74): offer the event to each handler registered
against the target, in order; return true at the first handler that consumes
it, false if none does (also when no handler is registered). -/
def Slot.emit {E : Type} (s : SlotModel E) (t : Nat) (ev : E) : Bool :=
  (emitScan ev (handlers_for s t)).1

/-- The handlers that the Slot::emit loop invokes for a given target and
event (same scan as Slot.emit). -/
def Slot.invoked {E : Type} (s : SlotModel E) (t : Nat) (ev : E) : List (E → Bool) :=
  (emitScan ev (handlers_for s t)).2

/-- Slot::on (ui.h:75-79): registers one more handler for the target.
multimap::insert puts the new entry after existing entries with the same
key, i.e. at the end of the registration order. -/
def Slot.on {E : Type} (s : SlotModel E) (t : Nat) (h : E → Bool) : SlotModel E :=
  SlotModel.mk (s.handlers ++ [(t, h)])

/-- Slot::remove_by_target (ui.h:80-83): multimap::erase(key) removes every
entry with that key and no other entry. -/
def Slot.remove_by_target {E : Type} (s : SlotModel E) (t : Nat) : SlotModel E :=
  SlotModel.mk (s.handlers.filter (fun pr => !decide (pr.1 = t)))

/-- The UI destructor (ui.h:92-94): UI::slots.event.remove_by_target(this),
deregistering every handler keyed by this widget's identity. -/
def UI_destructor {E : Type} (s : SlotModel E) (this : Nat) : SlotModel E :=
  Slot.remove_by_target s this

lemma emitScan_all_false {E : Type} (ev : E) :
    ∀ hs : List (E → Bool), (∀ f ∈ hs, f ev = false) → emitScan ev hs = (false, hs) := by
  intro hs
  induction hs with
  | nil => intro _; rfl
  | cons f fs ih =>
    intro hall
    have hf : f ev = false := hall f (List.mem_cons_self f fs)
    have hrest := ih (fun g hg => hall g (List.mem_cons_of_mem f hg))
    simp [emitScan, hf, hrest]

lemma emitScan_first_true {E : Type} (ev : E) :
    ∀ (hs : List (E → Bool)) (k : Nat) (hk : k < hs.length),
      (∀ j (hj : j < k), hs.get ⟨j, Nat.lt_trans hj hk⟩ ev = false) →
      hs.get ⟨k, hk⟩ ev = true →
      emitScan ev hs = (true, hs.take (k + 1)) := by
  intro hs
  induction hs with
  | nil => intro k hk; exact absurd hk (Nat.not_lt_zero k)
  | cons f fs ih =>
    intro k hk hbefore htrue
    cases k with
    | zero =>
      simp only [List.get] at htrue
      simp [emitScan, htrue]
    | succ k =>
      have hf : f ev = false := hbefore 0 (Nat.succ_pos k)
      have hk2 : k < fs.length := Nat.lt_of_succ_lt_succ hk
      have hbefore2 : ∀ j (hj : j < k), fs.get ⟨j, Nat.lt_trans hj hk2⟩ ev = false := by
        intro j hj
        have := hbefore (j + 1) (Nat.succ_lt_succ hj)
        simpa using this
      have htrue2 : fs.get ⟨k, hk2⟩ ev = true := by simpa using htrue
      have hrec := ih k hk2 hbefore2 htrue2
      simp [emitScan, hf, hrec]

/-- C4: Slot::emit invokes the handlers registered against exactly the given
target, in registration order: if no handler for the target returns true
(including when none is registered) every one of them is invoked exactly
once, in order, and emit returns false; if the k-th handler is the first to
return true, exactly the handlers up to and including it are invoked and
emit returns true, so handlers registered after the consuming one are never
invoked for that event. -/
theorem ui_slot_emit_in_order {E : Type} (s : SlotModel E) (t : Nat) (ev : E) :
    ((∀ f ∈ handlers_for s t, f ev = false) →
      Slot.emit s t ev = false ∧ Slot.invoked s t ev = handlers_for s t)
    ∧ (∀ k (hk : k < (handlers_for s t).length),
        (∀ j (hj : j < k), (handlers_for s t).get ⟨j, Nat.lt_trans hj hk⟩ ev = false) →
        (handlers_for s t).get ⟨k, hk⟩ ev = true →
        Slot.emit s t ev = true
          ∧ Slot.invoked s t ev = (handlers_for s t).take (k + 1)) := by
  constructor
  · intro hall
    have h := emitScan_all_false ev (handlers_for s t) hall
    exact ⟨by simp [Slot.emit, h], by simp [Slot.invoked, h]⟩
  · intro k hk hbefore htrue
    have h := emitScan_first_true ev (handlers_for s t) k hk hbefore htrue
    exact ⟨by simp [Slot.emit, h], by simp [Slot.invoked, h]⟩

/-- A concrete registry for the C4 witness: target 1 has two handlers, the
first never consumes, the second consumes event 5. -/
def slot4 : SlotModel Nat :=
  Slot.on (Slot.on (SlotModel.mk []) 1 (fun _ => false)) 1 (fun ev => decide (ev = 5))

/-- Witness for C4: in the concrete registry slot4, event 5 sent to target 1
is consumed (the second handler is the first to return true), and exactly
the first two handlers are invoked. -/
theorem ui_slot_emit_in_order_witness :
    Slot.emit slot4 1 5 = true
      ∧ Slot.invoked slot4 1 5 = (handlers_for slot4 1).take 2 :=
  (ui_slot_emit_in_order slot4 1 5).2 1 (by decide)
    (fun j hj => by interval_cases j; rfl) (by rfl)

/-- C5: destroying a widget removes from the registry every handler
registered under that widget's identity, and every handler registered under
any other identity remains, in order, unchanged. -/
theorem ui_destructor_removes_own_handlers {E : Type} (s : SlotModel E)
    (t t2 : Nat) (hne : t2 ≠ t) :
    handlers_for (UI_destructor s t) t = []
      ∧ handlers_for (UI_destructor s t) t2 = handlers_for s t2 := by
  unfold UI_destructor Slot.remove_by_target handlers_for
  constructor
  · induction s.handlers with
    | nil => rfl
    | cons p ps ih =>
      by_cases hp : p.1 = t <;> simp [hp, ih]
  · rw [List.filter_filter]
    have hpt : ∀ pr : Nat × (E → Bool),
        (decide (pr.1 = t2) && !decide (pr.1 = t)) = decide (pr.1 = t2) := by
      intro pr
      by_cases h2 : pr.1 = t2
      · simp [h2, hne]
      · simp [h2]
    rw [List.filter_congr (fun pr _ => hpt pr)]

/-- A concrete registry for the C5 witness: one handler on target 1 and one
on target 2. -/
def slot5 : SlotModel Nat :=
  SlotModel.mk [(1, fun _ => true), (2, fun ev => decide (ev = 3))]

/-- Witness for C5: destroying widget 1 empties its handler list and leaves
widget 2's handler list exactly as before. -/
theorem ui_destructor_removes_own_handlers_witness :
    handlers_for (UI_destructor slot5 1) 1 = []
      ∧ handlers_for (UI_destructor slot5 1) 2 = handlers_for slot5 2 :=
  ui_destructor_removes_own_handlers slot5 1 2 (by decide)

/-- The data members of class UI (ui.h:88-145): the public attributes, the
allocated region m_region, and the preferred-size cache fields. The C arrays
cached_sr_valid[2] and cached_sr[2] are modelled as pairs indexed by the
dimension; cached_sr_pw is the single int of ui.h:144. -/
structure UIProps where
  margin : i4
  flex_grow : Int
  align_self : UIAlign_type
  expand_h : Bool
  expand_v : Bool
  m_region : i4
  cached_sr_valid : Bool × Bool
  cached_sr : UISizeReq × UISizeReq
  cached_sr_pw : Int
deriving DecidableEq

/-- Dimension-indexed read of a two-element per-dimension array. -/
def pget {α : Type} (p : α × α) (d : Fin 2) : α :=
  if d = 0 then p.1 else p.2

/-- Dimension-indexed write of a two-element per-dimension array. -/
def pset {α : Type} (p : α × α) (d : Fin 2) (v : α) : α × α :=
  if d = 0 then (v, p.2) else (p.1, v)

/-- The UI constructor (ui.h:91): margin {0,0,0,0}, flex_grow 1, align_self
unset, expand_h and expand_v false, both cache validity flags false. The
fields m_region, cached_sr and cached_sr_pw are left uninitialized by the
constructor, so the model takes their indeterminate initial contents as
parameters. -/
def UI_default (sr0 sr1 : UISizeReq) (pw : Int) (reg : i4) : UIProps :=
  { margin := ⟨0, 0, 0, 0⟩, flex_grow := 1,
    align_self := UIAlign_type.UI_ALIGN_UNSET,
    expand_h := false, expand_v := false, m_region := reg,
    cached_sr_valid := (false, false), cached_sr := (sr0, sr1),
    cached_sr_pw := pw }

/-- UI::set_margin_for_crt (ui.h:114-119): the assignment to margin is
compiled only when USE_TILE_LOCAL is not defined (console build); in a tile
build the body is empty. The build configuration is the parameter
use_tile_local. -/
def set_margin_for_crt (use_tile_local : Bool) (m : i4) (w : UIProps) : UIProps :=
  if use_tile_local then w else { w with margin := m }

/-- UI::set_margin_for_sdl (ui.h:120-125): the assignment to margin is
compiled only when USE_TILE_LOCAL is defined (tile build); in a console
build the body is empty. -/
def set_margin_for_sdl (use_tile_local : Bool) (m : i4) (w : UIProps) : UIProps :=
  if use_tile_local then { w with margin := m } else w

/-- The data members a UIBox adds to the base widget (ui.h:225-234). -/
structure UIBoxProps where
  base : UIProps
  horz : Bool
  justify_items : UIJustify_type
  align_items : UIAlign_type
deriving DecidableEq

/-- The UIBox constructor (ui.h:228-230): horz false, justify_items start,
align_items unset, and the body then sets the inherited expand_h and
expand_v to true (over the base constructor's false). -/
def UIBox_default (sr0 sr1 : UISizeReq) (pw : Int) (reg : i4) : UIBoxProps :=
  { base := { UI_default sr0 sr1 pw reg with expand_h := true, expand_v := true },
    horz := false, justify_items := UIJustify_type.UI_JUSTIFY_START,
    align_items := UIAlign_type.UI_ALIGN_UNSET }

/-- C7: a newly constructed base widget has margin (0,0,0,0), flex-grow 1,
self-alignment unset, both expansion hints false, and both per-dimension
preferred-size cache entries marked invalid, whatever indeterminate values
the uninitialized fields hold. -/
theorem ui_default_attributes (sr0 sr1 : UISizeReq) (pw : Int) (reg : i4) :
    (UI_default sr0 sr1 pw reg).margin = ⟨0, 0, 0, 0⟩
      ∧ (UI_default sr0 sr1 pw reg).flex_grow = 1
      ∧ (UI_default sr0 sr1 pw reg).align_self = UIAlign_type.UI_ALIGN_UNSET
      ∧ (UI_default sr0 sr1 pw reg).expand_h = false
      ∧ (UI_default sr0 sr1 pw reg).expand_v = false
      ∧ (UI_default sr0 sr1 pw reg).cached_sr_valid = (false, false) :=
  ⟨rfl, rfl, rfl, rfl, rfl, rfl⟩

/-- C9: in a tile (USE_TILE_LOCAL) build only set_margin_for_sdl assigns the
margin and set_margin_for_crt leaves the widget entirely unchanged; in a
console build only set_margin_for_crt assigns the margin and
set_margin_for_sdl leaves the widget entirely unchanged. -/
theorem ui_margin_setters_build_config (m : i4) (w : UIProps) :
    set_margin_for_sdl true m w = { w with margin := m }
      ∧ set_margin_for_crt true m w = w
      ∧ set_margin_for_crt false m w = { w with margin := m }
      ∧ set_margin_for_sdl false m w = w :=
  ⟨rfl, rfl, rfl, rfl⟩

/-- C10: a newly constructed Box defaults to a column arrangement (horz
false) with justify_items start and align_items unset, and sets both
expansion hints to true, unlike the base-widget default of false. -/
theorem ui_box_default_attributes (sr0 sr1 : UISizeReq) (pw : Int) (reg : i4) :
    (UIBox_default sr0 sr1 pw reg).horz = false
      ∧ (UIBox_default sr0 sr1 pw reg).justify_items = UIJustify_type.UI_JUSTIFY_START
      ∧ (UIBox_default sr0 sr1 pw reg).align_items = UIAlign_type.UI_ALIGN_UNSET
      ∧ (UIBox_default sr0 sr1 pw reg).base.expand_h = true
      ∧ (UIBox_default sr0 sr1 pw reg).base.expand_v = true
      ∧ (UI_default sr0 sr1 pw reg).expand_h = false
      ∧ (UI_default sr0 sr1 pw reg).expand_v = false :=
  ⟨rfl, rfl, rfl, rfl, rfl, rfl, rfl⟩

/-- A widget as the get_preferred_size wrapper sees it: its UI data members
plus its virtual _get_preferred_size (ui.h:103), the un-margined internal
computation the wrapper defers to, given the dimension and the prospective
size of the other dimension. -/
structure Widget where
  props : UIProps
  compute : Fin 2 → Int → UISizeReq

/-- Modelled from the spec: the margin contribution the wrapper adds along
one queried dimension (the two margin components perpendicular to it). The
wrapper body is not under src/; spec section 4.1 says the wrapper adds the
widget's margin to the internal result. Which two components pair with which
dimension is immaterial to the claims settled here. -/
def margin_sum (m : i4) (d : Fin 2) : Int :=
  if d = 0 then m.x1 + m.x3 else m.x0 + m.x2

/-- Modelled from the spec: the body of UI::get_preferred_size is not under
src/ — only its declaration (ui.h:111) and the cache fields it maintains
(ui.h:141-144). Spec section 4.1: the wrapper caches the result per
dimension, reuses the cache only when the prospective size matches the one
the cached value was built against, recomputes otherwise, and adds the
widget's margin to the internal computation's result. The stored prospective
size is the source's single field cached_sr_pw (ui.h:144), shared by both
dimensions. Returns the pair, the updated widget, and whether the internal
computation ran. -/
def get_preferred_size (w : Widget) (d : Fin 2) (prosp : Int) :
    UISizeReq × Widget × Bool :=
  if pget w.props.cached_sr_valid d = true ∧ w.props.cached_sr_pw = prosp then
    (pget w.props.cached_sr d, w, false)
  else
    let r0 := w.compute d prosp
    let m := margin_sum w.props.margin d
    let r : UISizeReq := ⟨r0.min + m, r0.nat + m⟩
    (r, { w with props := { w.props with
      cached_sr_valid := pset w.props.cached_sr_valid d true,
      cached_sr := pset w.props.cached_sr d r,
      cached_sr_pw := prosp } }, true)

lemma pget_pset_same {α : Type} (p : α × α) (d : Fin 2) (v : α) :
    pget (pset p d v) d = v := by
  fin_cases d <;> simp [pget, pset]

lemma pget_pset_other {α : Type} (p : α × α) (d d2 : Fin 2) (v : α)
    (hne : d2 ≠ d) : pget (pset p d v) d2 = pget p d2 := by
  fin_cases d <;> fin_cases d2 <;> simp_all [pget, pset]

lemma gps_hit (w : Widget) (d : Fin 2) (prosp : Int)
    (hv : pget w.props.cached_sr_valid d = true)
    (hpw : w.props.cached_sr_pw = prosp) :
    get_preferred_size w d prosp = (pget w.props.cached_sr d, w, false) := by
  unfold get_preferred_size
  rw [if_pos ⟨hv, hpw⟩]

lemma gps_miss (w : Widget) (d : Fin 2) (prosp : Int)
    (h : ¬(pget w.props.cached_sr_valid d = true ∧ w.props.cached_sr_pw = prosp)) :
    get_preferred_size w d prosp =
      (⟨(w.compute d prosp).min + margin_sum w.props.margin d,
        (w.compute d prosp).nat + margin_sum w.props.margin d⟩,
       { w with props := { w.props with
          cached_sr_valid := pset w.props.cached_sr_valid d true,
          cached_sr := pset w.props.cached_sr d
            ⟨(w.compute d prosp).min + margin_sum w.props.margin d,
             (w.compute d prosp).nat + margin_sum w.props.margin d⟩,
          cached_sr_pw := prosp } }, true) := by
  unfold get_preferred_size
  rw [if_neg h]

lemma gps_state (w : Widget) (d : Fin 2) (prosp : Int) :
    pget (get_preferred_size w d prosp).2.1.props.cached_sr_valid d = true
      ∧ (get_preferred_size w d prosp).2.1.props.cached_sr_pw = prosp
      ∧ pget (get_preferred_size w d prosp).2.1.props.cached_sr d
          = (get_preferred_size w d prosp).1 := by
  by_cases h : pget w.props.cached_sr_valid d = true ∧ w.props.cached_sr_pw = prosp
  · rw [gps_hit w d prosp h.1 h.2]
    exact ⟨h.1, h.2, rfl⟩
  · rw [gps_miss w d prosp h]
    exact ⟨pget_pset_same _ d _, rfl, pget_pset_same _ d _⟩

lemma gps_recomputes (w : Widget) (d : Fin 2) (prosp : Int)
    (h : w.props.cached_sr_pw ≠ prosp) :
    (get_preferred_size w d prosp).2.2 = true := by
  have hc : ¬(pget w.props.cached_sr_valid d = true ∧ w.props.cached_sr_pw = prosp) :=
    fun hx => h hx.2
  rw [gps_miss w d prosp hc]

/-- C2 (amended): the wrapper caches per dimension, but the prospective size
the cache was built against is one field shared by both dimensions. A query
repeated immediately with the same dimension and prospective size returns
the cached pair without recomputation; a query whose prospective size
differs from the stored one recomputes; and a query in the other dimension
with a different prospective size invalidates this dimension's entry, so the
next query here recomputes even though its own prospective size is
unchanged. -/
theorem ui_preferred_size_cache_behavior (w : Widget) (d : Fin 2) (prosp : Int) :
    (get_preferred_size (get_preferred_size w d prosp).2.1 d prosp
        = ((get_preferred_size w d prosp).1, (get_preferred_size w d prosp).2.1, false))
    ∧ (∀ prosp2, prosp2 ≠ prosp →
        (get_preferred_size (get_preferred_size w d prosp).2.1 d prosp2).2.2 = true)
    ∧ (∀ (d2 : Fin 2) (prosp2 : Int), d2 ≠ d → prosp2 ≠ prosp →
        (get_preferred_size
            (get_preferred_size (get_preferred_size w d prosp).2.1 d2 prosp2).2.1
            d prosp).2.2 = true) := by
  obtain ⟨hv, hpw, hc⟩ := gps_state w d prosp
  refine ⟨?_, ?_, ?_⟩
  · rw [gps_hit _ d prosp hv hpw, hc]
  · intro prosp2 hne
    exact gps_recomputes _ d prosp2 (by rw [hpw]; exact fun h => hne h.symm)
  · intro d2 prosp2 _ hne
    obtain ⟨_, hpw2, _⟩ := gps_state (get_preferred_size w d prosp).2.1 d2 prosp2
    exact gps_recomputes _ d prosp (by rw [hpw2]; exact hne)

/-- A concrete widget for the C2 theorems: fresh base-widget state (both
cache entries invalid) and a constant internal computation. -/
def wgt2 : Widget :=
  { props := UI_default ⟨0, 0⟩ ⟨0, 0⟩ 0 ⟨0, 0, 0, 0⟩,
    compute := fun _ _ => ⟨1, 2⟩ }

/-- Counterexample for C2 as stated: dimension 0 is queried at prospective
size 5, dimension 1 is then queried at prospective size 7, and the repeat of
the dimension-0 query at the unchanged prospective size 5 recomputes
(internal computation runs again), because the intervening dimension-1 query
overwrote the shared stored prospective size — so the per-dimension cache
entries are not maintained independently of queries in the other
dimension. -/
theorem ui_preferred_size_cache_not_independent :
    (get_preferred_size
        (get_preferred_size (get_preferred_size wgt2 0 5).2.1 1 7).2.1
        0 5).2.2 = true := rfl

/-- Witness for the amended C2 at the concrete widget wgt2, dimension 0,
prospective sizes 5 and 7, other dimension 1. -/
theorem ui_preferred_size_cache_behavior_witness :
    (get_preferred_size (get_preferred_size wgt2 0 5).2.1 0 5
        = ((get_preferred_size wgt2 0 5).1, (get_preferred_size wgt2 0 5).2.1, false))
    ∧ (get_preferred_size (get_preferred_size wgt2 0 5).2.1 0 7).2.2 = true
    ∧ (get_preferred_size
          (get_preferred_size (get_preferred_size wgt2 0 5).2.1 1 7).2.1
          0 5).2.2 = true :=
  ⟨(ui_preferred_size_cache_behavior wgt2 0 5).1,
   (ui_preferred_size_cache_behavior wgt2 0 5).2.1 7 (by decide),
   (ui_preferred_size_cache_behavior wgt2 0 5).2.2 1 7 (by decide) (by decide)⟩

/-- A well-formed preferred-size pair per spec section 4.1: non-negative
minimum not exceeding the natural size. -/
def SRok (r : UISizeReq) : Prop := 0 ≤ r.min ∧ r.min ≤ r.nat

/-- Modelled from the spec: a widget whose missing pieces meet their
contracts — its internal _get_preferred_size (whose overriding bodies are
not under src/) always returns a well-formed pair, its margins are
non-negative, and any cache entry currently marked valid holds a well-formed
pair (true of every state reachable from a fresh widget, whose entries are
invalid). -/
def WidgetWF (w : Widget) : Prop :=
  (∀ (d : Fin 2) (p : Int), SRok (w.compute d p))
  ∧ (0 ≤ w.props.margin.x0 ∧ 0 ≤ w.props.margin.x1
      ∧ 0 ≤ w.props.margin.x2 ∧ 0 ≤ w.props.margin.x3)
  ∧ (∀ d : Fin 2, pget w.props.cached_sr_valid d = true → SRok (pget w.props.cached_sr d))

/-- C6: for every well-formed widget, every dimension and every prospective
cross size, the pair returned by the get_preferred_size wrapper satisfies
0 ≤ min ≤ natural (so both components are non-negative), and the widget
state after the query is well-formed again, so every pair returned along any
sequence of queries satisfies the guarantee. -/
theorem ui_preferred_size_wellformed (w : Widget) (d : Fin 2) (prosp : Int)
    (hWF : WidgetWF w) :
    (0 ≤ (get_preferred_size w d prosp).1.min
      ∧ (get_preferred_size w d prosp).1.min ≤ (get_preferred_size w d prosp).1.nat
      ∧ 0 ≤ (get_preferred_size w d prosp).1.nat)
    ∧ WidgetWF (get_preferred_size w d prosp).2.1 := by
  obtain ⟨hcomp, hmar, hcache⟩ := hWF
  have hm : 0 ≤ margin_sum w.props.margin d := by
    fin_cases d <;> simp [margin_sum] <;> omega
  by_cases h : pget w.props.cached_sr_valid d = true ∧ w.props.cached_sr_pw = prosp
  · rw [gps_hit w d prosp h.1 h.2]
    obtain ⟨h1, h2⟩ := hcache d h.1
    exact ⟨⟨h1, h2, le_trans h1 h2⟩, hcomp, hmar, hcache⟩
  · rw [gps_miss w d prosp h]
    obtain ⟨hc1, hc2⟩ := hcomp d prosp
    refine ⟨⟨?_, ?_, ?_⟩, hcomp, hmar, ?_⟩
    · show 0 ≤ (w.compute d prosp).min + margin_sum w.props.margin d
      omega
    · show (w.compute d prosp).min + margin_sum w.props.margin d
        ≤ (w.compute d prosp).nat + margin_sum w.props.margin d
      omega
    · show 0 ≤ (w.compute d prosp).nat + margin_sum w.props.margin d
      omega
    intro d2 hv2
    by_cases hd : d2 = d
    · subst hd
      rw [pget_pset_same]
      exact ⟨show 0 ≤ (w.compute d2 prosp).min + margin_sum w.props.margin d2 by omega,
             show (w.compute d2 prosp).min + margin_sum w.props.margin d2
               ≤ (w.compute d2 prosp).nat + margin_sum w.props.margin d2 by omega⟩
    · rw [pget_pset_other _ d d2 _ hd]
      rw [pget_pset_other _ d d2 _ hd] at hv2
      exact hcache d2 hv2

/-- A concrete widget for the C6 witness: fresh default state, constant
well-formed internal computation. -/
def wgt6 : Widget :=
  { props := UI_default ⟨0, 0⟩ ⟨0, 0⟩ 0 ⟨0, 0, 0, 0⟩,
    compute := fun _ _ => ⟨1, 2⟩ }

/-- Witness for C6 at the concrete widget wgt6, dimension 0, prospective
size 5. -/
theorem ui_preferred_size_wellformed_witness :
    (0 ≤ (get_preferred_size wgt6 0 5).1.min
      ∧ (get_preferred_size wgt6 0 5).1.min ≤ (get_preferred_size wgt6 0 5).1.nat
      ∧ 0 ≤ (get_preferred_size wgt6 0 5).1.nat)
    ∧ WidgetWF (get_preferred_size wgt6 0 5).2.1 :=
  ui_preferred_size_wellformed wgt6 0 5
    ⟨fun _ _ => ⟨by norm_num [wgt6], by norm_num [wgt6]⟩,
     ⟨by norm_num [wgt6, UI_default], by norm_num [wgt6, UI_default],
      by norm_num [wgt6, UI_default], by norm_num [wgt6, UI_default]⟩,
     fun d hv => by fin_cases d <;> simp [wgt6, UI_default, pget] at hv⟩

/-- Per-track data of a UIGrid (ui.h:340-345). -/
structure track_info where
  size : Int
  offset : Int
  sr : UISizeReq
  flex_grow : Int
deriving DecidableEq

/-- The track state of a UIGrid (ui.h:346-347): the column and row track
vectors. -/
structure UIGridModel where
  m_col_info : List track_info
  m_row_info : List track_info
deriving DecidableEq

/-- Outcome of a call to UIGrid::track_flex_grow: the ASSERT fires, a track
weight is returned, or a vector element outside the vector's bounds is
accessed (undefined behavior in the C++). -/
inductive TFGResult where
  | assert_fail
  | value (v : Int)
  | oob
deriving DecidableEq

/-- UIGrid::track_flex_grow (ui.h:319-324): ASSERT(x == -1 || y == -1), then
return (x >= 0 ? m_col_info[x] : m_row_info[y]).flex_grow. The model takes
the track vectors as given state: the preceding init_track_info() call
(body not under src/) lazily recomputes sizes and offsets but the claim only
concerns the assertion and the selection. A vector access at an index not
below the vector's size — in particular at a negative index, which
converts to a huge size_t — is oob. -/
def track_flex_grow (g : UIGridModel) (x y : Int) : TFGResult :=
  if ¬(x = -1 ∨ y = -1) then TFGResult.assert_fail
  else if 0 ≤ x then
    match g.m_col_info.get? x.toNat with
    | some t => TFGResult.value t.flex_grow
    | none => TFGResult.oob
  else if 0 ≤ y then
    match g.m_row_info.get? y.toNat with
    | some t => TFGResult.value t.flex_grow
    | none => TFGResult.oob
  else TFGResult.oob

/-- A concrete grid for the C1 theorem: one column track with weight 3, one
row track with weight 5. -/
def grid1 : UIGridModel :=
  { m_col_info := [⟨1, 0, ⟨0, 0⟩, 3⟩],
    m_row_info := [⟨1, 0, ⟨0, 0⟩, 5⟩] }

/-- C1: with exactly one of x and y equal to -1 the call passes the ASSERT
and returns the selected column weight (x ≥ 0) or row weight; with both
non-negative the ASSERT fires. But with both arguments -1 the claim fails on
the code: ASSERT(x == -1 || y == -1) is satisfied, no assertion fires, and
the call instead reads m_row_info[-1], an out-of-bounds vector access. -/
theorem ui_track_flex_grow_assert_gap :
    track_flex_grow grid1 0 (-1) = TFGResult.value 3
      ∧ track_flex_grow grid1 (-1) 0 = TFGResult.value 5
      ∧ track_flex_grow grid1 0 0 = TFGResult.assert_fail
      ∧ track_flex_grow grid1 (-1) (-1) = TFGResult.oob := by
  refine ⟨?_, ?_, ?_, ?_⟩ <;> rfl

/-- UIGrid::get_tracks_region (ui.h:331-338), with the four vector accesses
made total: none when any accessed track index is out of bounds. -/
def get_tracks_region (g : UIGridModel) (x y w h : Nat) : Option i4 :=
  match g.m_col_info.get? x, g.m_row_info.get? y,
        g.m_col_info.get? (x + w - 1), g.m_row_info.get? (y + h - 1) with
  | some cx, some ry, some cw, some rh =>
    some ⟨cx.offset, ry.offset,
          cw.size + cw.offset - cx.offset,
          rh.size + rh.offset - ry.offset⟩
  | _, _, _, _ => none

/-- The track-offset invariant of spec section 3: each track's offset is the
previous track's offset plus its size (offsets are a running prefix sum). -/
def offsets_chain : List track_info → Bool
  | [] => true
  | [_] => true
  | a :: b :: rest =>
    decide (b.offset = a.offset + a.size) && offsets_chain (b :: rest)

lemma offsets_chain_tail {a : track_info} {l : List track_info}
    (h : offsets_chain (a :: l) = true) : offsets_chain l = true := by
  cases l with
  | nil => rfl
  | cons b rest =>
    have := h
    simp only [offsets_chain, Bool.and_eq_true] at this
    exact this.2

lemma offsets_chain_step (l : List track_info) (hC : offsets_chain l = true) :
    ∀ (i : Nat) (a b : track_info), l.get? i = some a → l.get? (i + 1) = some b →
      b.offset = a.offset + a.size := by
  induction l with
  | nil => intro i a b ha; simp at ha
  | cons t ts ih =>
    intro i a b ha hb
    cases i with
    | zero =>
      cases ts with
      | nil => simp at hb
      | cons u us =>
        simp only [List.get?] at ha hb
        injection ha with ha
        injection hb with hb
        subst ha
        subst hb
        simp only [offsets_chain, Bool.and_eq_true, decide_eq_true_eq] at hC
        exact hC.1
    | succ j =>
      simp only [List.get?] at ha hb
      exact ih (offsets_chain_tail hC) j a b ha hb

lemma slice_one (l : List track_info) (x : Nat) (a : track_info)
    (ha : l.get? x = some a) :
    (((l.drop x).take 1).map track_info.size).sum = a.size := by
  have h0 : (l.drop x).get? 0 = some a := by
    rw [List.get?_drop]
    simpa using ha
  cases hd : l.drop x with
  | nil => rw [hd] at h0; simp at h0
  | cons u us =>
    rw [hd] at h0
    simp only [List.get?] at h0
    injection h0 with h0
    subst h0
    simp

lemma chain_span (l : List track_info) (hC : offsets_chain l = true) :
    ∀ (w x : Nat) (a e : track_info), 1 ≤ w →
      l.get? x = some a → l.get? (x + w - 1) = some e →
      e.offset + e.size = a.offset + (((l.drop x).take w).map track_info.size).sum := by
  intro w
  induction w with
  | zero => intro x a e h1; exact absurd h1 (by omega)
  | succ k ih =>
    intro x a e _ ha he
    cases Nat.eq_zero_or_pos k with
    | inl hk0 =>
      subst hk0
      rw [show x + 1 - 1 = x by omega] at he
      have hae : a = e := by
        rw [ha] at he
        exact Option.some.inj he
      subst hae
      rw [slice_one l x a ha]
    | inr hkpos =>
      rw [show x + (k + 1) - 1 = x + k by omega] at he
      have hlen : x + k < l.length := by
        by_contra hnot
        rw [List.get?_eq_none.mpr (by omega)] at he
        exact Option.noConfusion he
      have hlen2 : x + k - 1 < l.length := by omega
      have hdm : l.get? (x + k - 1) = some (l.get ⟨x + k - 1, hlen2⟩) :=
        List.get?_eq_get hlen2
      have hih := ih x a (l.get ⟨x + k - 1, hlen2⟩) hkpos ha hdm
      have hstep : e.offset = (l.get ⟨x + k - 1, hlen2⟩).offset
          + (l.get ⟨x + k - 1, hlen2⟩).size := by
        apply offsets_chain_step l hC (x + k - 1) _ e hdm
        rw [show x + k - 1 + 1 = x + k by omega]
        exact he
      have hslice : (((l.drop x).take (k + 1)).map track_info.size).sum
          = (((l.drop x).take k).map track_info.size).sum + e.size := by
        rw [List.take_succ]
        have hgd : (l.drop x).get? k = some e := by
          rw [List.get?_drop]
          exact he
        rw [List.get?_eq_getElem?] at hgd
        rw [hgd]
        simp
      rw [hslice, hstep]
      omega

/-- C3: with column offsets satisfying the prefix-sum property, the region
computed by get_tracks_region for a child at column x spanning w columns has
width equal to the sum of the sizes of columns x through x+w-1 (no gap), and
symmetrically for rows and height, regardless of the tracks' flex weights
(which the computation never consults). -/
theorem ui_grid_span_width (g : UIGridModel) (x y w h : Nat)
    (hcols : offsets_chain g.m_col_info = true)
    (hrows : offsets_chain g.m_row_info = true)
    (hw : 1 ≤ w) (hh : 1 ≤ h)
    (hxw : x + w ≤ g.m_col_info.length)
    (hyh : y + h ≤ g.m_row_info.length) :
    ∃ r, get_tracks_region g x y w h = some r
      ∧ r.x2 = (((g.m_col_info.drop x).take w).map track_info.size).sum
      ∧ r.x3 = (((g.m_row_info.drop y).take h).map track_info.size).sum := by
  have hx : x < g.m_col_info.length := by omega
  have hxe : x + w - 1 < g.m_col_info.length := by omega
  have hy : y < g.m_row_info.length := by omega
  have hye : y + h - 1 < g.m_row_info.length := by omega
  have hcx := List.get?_eq_get hx
  have hcw := List.get?_eq_get hxe
  have hry := List.get?_eq_get hy
  have hrh := List.get?_eq_get hye
  have hspanc := chain_span g.m_col_info hcols w x _ _ hw hcx hcw
  have hspanr := chain_span g.m_row_info hrows h y _ _ hh hry hrh
  refine ⟨⟨(g.m_col_info.get ⟨x, hx⟩).offset, (g.m_row_info.get ⟨y, hy⟩).offset,
      (g.m_col_info.get ⟨x + w - 1, hxe⟩).size
        + (g.m_col_info.get ⟨x + w - 1, hxe⟩).offset
        - (g.m_col_info.get ⟨x, hx⟩).offset,
      (g.m_row_info.get ⟨y + h - 1, hye⟩).size
        + (g.m_row_info.get ⟨y + h - 1, hye⟩).offset
        - (g.m_row_info.get ⟨y, hy⟩).offset⟩, ?_, ?_, ?_⟩
  · unfold get_tracks_region
    rw [hcx, hry, hcw, hrh]
  · show (g.m_col_info.get ⟨x + w - 1, hxe⟩).size
        + (g.m_col_info.get ⟨x + w - 1, hxe⟩).offset
        - (g.m_col_info.get ⟨x, hx⟩).offset
      = (((g.m_col_info.drop x).take w).map track_info.size).sum
    omega
  · show (g.m_row_info.get ⟨y + h - 1, hye⟩).size
        + (g.m_row_info.get ⟨y + h - 1, hye⟩).offset
        - (g.m_row_info.get ⟨y, hy⟩).offset
      = (((g.m_row_info.drop y).take h).map track_info.size).sum
    omega

/-- A concrete grid for the C3 witness: two columns of sizes 10 and 20 with
prefix-sum offsets 0 and 10 and different flex weights, one row of size 5. -/
def grid3 : UIGridModel :=
  { m_col_info := [⟨10, 0, ⟨0, 0⟩, 0⟩, ⟨20, 10, ⟨0, 0⟩, 7⟩],
    m_row_info := [⟨5, 0, ⟨0, 0⟩, 1⟩] }

/-- Witness for C3: in grid3 a child at column 0 spanning both columns gets
width 10 + 20 and height 5. -/
theorem ui_grid_span_width_witness :
    ∃ r, get_tracks_region grid3 0 0 2 1 = some r
      ∧ r.x2 = (((grid3.m_col_info.drop 0).take 2).map track_info.size).sum
      ∧ r.x3 = (((grid3.m_row_info.drop 0).take 1).map track_info.size).sum :=
  ui_grid_span_width grid3 0 0 2 1 (by decide) (by decide) (by decide)
    (by decide) (by decide) (by decide)

/-- The child storage of a UIStack (ui.h:299-311, inherited m_children of
ui.h:217): a vector of shared_ptr children in insertion order (add_child
appends). Children are modelled abstractly by a type parameter. -/
structure UIStackModel (α : Type) where
  m_children : List α

/-- UIStack::num_children (ui.h:304): m_children.size(). -/
def num_children {α : Type} (s : UIStackModel α) : Nat := s.m_children.length

/-- UIStack::get_child (ui.h:305): m_children[idx], with the vector access
made total: none when idx is not below the vector's size (in the C++ an
out-of-bounds access, undefined behavior). -/
def get_child {α : Type} (s : UIStackModel α) (idx : Nat) : Option α :=
  s.m_children.get? idx

/-- C8: get_child is well-defined exactly for idx < num_children, where it
returns the idx-th child in insertion order; for idx ≥ num_children the
underlying vector access is out of bounds and the total model yields
none. -/
theorem ui_stack_get_child_spec {α : Type} (s : UIStackModel α) (idx : Nat) :
    ((get_child s idx).isSome = true ↔ idx < num_children s)
    ∧ ∀ h : idx < num_children s,
        get_child s idx = some (s.m_children.get ⟨idx, h⟩) := by
  constructor
  · constructor
    · intro hs
      by_contra hlt
      push_neg at hlt
      rw [get_child, List.get?_eq_none.mpr hlt] at hs
      exact Bool.noConfusion hs
    · intro h
      rw [get_child, List.get?_eq_get h]
      rfl
  · intro h
    exact List.get?_eq_get h

/-- A concrete stack for the C8 witness: two children, 10 then 20. -/
def stack8 : UIStackModel Nat := { m_children := [10, 20] }

/-- Witness for C8: in stack8, index 1 is in bounds and get_child returns
the second inserted child, 20. -/
theorem ui_stack_get_child_spec_witness :
    get_child stack8 1 = some 20 :=
  (ui_stack_get_child_spec stack8 1).2 (by decide)
